import Mathlib

/-!
Verification of the pricing-intelligence dashboard components
(PricingHeatmap, VendorMatrix, SKUSearch, PromoCalibrationSlider).

Each definition below is a shallow embedding of a function from the
TypeScript source.  JavaScript numbers are modelled as rationals (ℚ),
JavaScript array indexing (which yields `undefined` out of range,
including for negative indices) is modelled as `Option`-valued lookup,
and the React component state is modelled as explicit records with the
event handlers as state-transition functions.
-/

/-- JavaScript array indexing `l[i]` with an integer index: yields the
element for `0 ≤ i < l.length` and `undefined` (here `none`) otherwise,
in particular for negative `i`. -/
def jsIndex {α : Type} (l : List α) (i : ℤ) : Option α :=
  if 0 ≤ i then l.get? i.toNat else none

/-- The palette index computed by `getColorFromScale` in the non-degenerate
branch (PricingHeatmap source, lines 91-95):
`Math.min(Math.floor(normalized * colorScale.length), colorScale.length - 1)`
with `normalized = (value - min) / (max - min)`.  The source binders `min`
and `max` are renamed `vMin`/`vMax`.  Note the index is an integer that can
be negative: `Math.min` clamps it from above only. -/
def colorScaleIndex (value vMin vMax : ℚ) (n : ℕ) : ℤ :=
  Min.min ⌊(value - vMin) / (vMax - vMin) * (n : ℚ)⌋ ((n : ℤ) - 1)

/-- Embedding of `getColorFromScale` (PricingHeatmap source, lines 84-97).
`if (max === min) return colorScale[Math.floor(colorScale.length / 2)];`
then index the palette with the clamped floor index.  The return type is
`Option String` because JavaScript indexing out of range yields
`undefined`. -/
def getColorFromScale (value vMin vMax : ℚ) (colorScale : List String) : Option String :=
  if vMax = vMin then
    colorScale.get? (colorScale.length / 2)
  else
    jsIndex colorScale (colorScaleIndex value vMin vMax colorScale.length)

theorem jsIndex_neg {α : Type} (l : List α) (i : ℤ) (h : i < 0) : jsIndex l i = none := by
  simp [jsIndex, not_le.mpr h]

theorem colorScaleIndex_nonneg (value vMin vMax : ℚ) (n : ℕ)
    (hlt : vMin < vMax) (hge : vMin ≤ value) (hn : 0 < n) :
    0 ≤ colorScaleIndex value vMin vMax n := by
  have h1 : (0 : ℚ) ≤ (value - vMin) / (vMax - vMin) :=
    div_nonneg (by linarith) (by linarith)
  have h2 : (0 : ℚ) ≤ (value - vMin) / (vMax - vMin) * (n : ℚ) :=
    mul_nonneg h1 (by positivity)
  refine le_min (Int.floor_nonneg.mpr h2) ?_
  omega

theorem colorScaleIndex_lt (value vMin vMax : ℚ) (n : ℕ) (hn : 0 < n) :
    colorScaleIndex value vMin vMax n < (n : ℤ) := by
  have := min_le_right ⌊(value - vMin) / (vMax - vMin) * (n : ℚ)⌋ ((n : ℤ) - 1)
  calc colorScaleIndex value vMin vMax n ≤ (n : ℤ) - 1 := this
  _ < (n : ℤ) := by omega

/-- C1 (corrected): the claim as stated is false.  With `min = 1 < max = 2`
and `value = 0 < min`, the normalized value is `-1`, the computed index is
`min (-5) 4 = -5`, and indexing the five-entry palette at `-5` yields
`undefined`, not one of the palette entries: the source clamps the index
from above only, never from below. -/
theorem getColorFromScale_below_min_counterexample :
    getColorFromScale 0 1 2 ["#22c55e", "#84cc16", "#eab308", "#f97316", "#ef4444"] = none
    ∧ ¬ ∃ c ∈ ["#22c55e", "#84cc16", "#eab308", "#f97316", "#ef4444"],
        getColorFromScale 0 1 2 ["#22c55e", "#84cc16", "#eab308", "#f97316", "#ef4444"] = some c := by
  have hidx : colorScaleIndex 0 1 2 5 = -5 := by
    norm_num [colorScaleIndex]
  have h : getColorFromScale 0 1 2 ["#22c55e", "#84cc16", "#eab308", "#f97316", "#ef4444"] = none := by
    rw [getColorFromScale, if_neg (by norm_num)]
    show jsIndex _ (colorScaleIndex 0 1 2 5) = none
    rw [hidx]
    exact jsIndex_neg _ _ (by norm_num)
  refine ⟨h, ?_⟩
  rintro ⟨c, _, hc⟩
  rw [h] at hc
  exact Option.noConfusion hc

/-- C1 (amended): for every finite value, min < max and non-empty ordered
palette of N colors, the computed index `floor((value-min)/(max-min) * N)`
is clamped from above to `N-1` only; hence whenever `value ≥ min` the
function returns one of the N supplied palette entries (even when `value`
exceeds `max`), while a value strictly below `min` produces a negative
index and no palette entry is returned. -/
theorem getColorFromScale_clamped (value vMin vMax : ℚ) (colorScale : List String)
    (hlt : vMin < vMax) (hn : 0 < colorScale.length) :
    (vMin ≤ value → ∃ c ∈ colorScale, getColorFromScale value vMin vMax colorScale = some c)
    ∧ (value < vMin → getColorFromScale value vMin vMax colorScale = none) := by
  have hne : vMax ≠ vMin := ne_of_gt hlt
  constructor
  · intro hge
    have h0 : 0 ≤ colorScaleIndex value vMin vMax colorScale.length :=
      colorScaleIndex_nonneg value vMin vMax colorScale.length hlt hge hn
    have hlt' : colorScaleIndex value vMin vMax colorScale.length < (colorScale.length : ℤ) :=
      colorScaleIndex_lt value vMin vMax colorScale.length hn
    have htn : (colorScaleIndex value vMin vMax colorScale.length).toNat < colorScale.length := by
      omega
    refine ⟨colorScale.get ⟨_, htn⟩, List.get_mem _ _ _, ?_⟩
    rw [getColorFromScale, if_neg hne]
    rw [jsIndex, if_pos h0]
    exact List.get?_eq_get htn
  · intro hbelow
    have hq : (value - vMin) / (vMax - vMin) * (colorScale.length : ℚ) < 0 := by
      have hd : (value - vMin) / (vMax - vMin) < 0 :=
        div_neg_of_neg_of_pos (by linarith) (by linarith)
      have : (0 : ℚ) < (colorScale.length : ℚ) := by exact_mod_cast hn
      exact mul_neg_of_neg_of_pos hd this
    have hfl : ⌊(value - vMin) / (vMax - vMin) * (colorScale.length : ℚ)⌋ < 0 := by
      exact_mod_cast Int.floor_lt.mpr (by exact_mod_cast hq)
    have hidx : colorScaleIndex value vMin vMax colorScale.length < 0 :=
      lt_of_le_of_lt (min_le_left _ _) hfl
    rw [getColorFromScale, if_neg hne]
    exact jsIndex_neg _ _ hidx

/-- Witness for C1 (amended) at concrete inputs: value 120 above max 100
still receives a palette entry (the clamp from above), and it is applied
through the theorem itself. -/
theorem getColorFromScale_clamped_witness :
    ∃ c ∈ ["#22c55e", "#84cc16", "#eab308", "#f97316", "#ef4444"],
      getColorFromScale 120 0 100 ["#22c55e", "#84cc16", "#eab308", "#f97316", "#ef4444"] = some c :=
  (getColorFromScale_clamped 120 0 100 ["#22c55e", "#84cc16", "#eab308", "#f97316", "#ef4444"]
    (by norm_num) (by norm_num)).1 (by norm_num)

/-- C6 (confirmed): whenever `min = max`, `getColorFromScale` returns the
palette entry at index `floor(N/2)` (the middle entry), regardless of the
value supplied, for every non-empty palette. -/
theorem getColorFromScale_degenerate (value vMin : ℚ) (colorScale : List String)
    (hn : 0 < colorScale.length) :
    ∃ h : colorScale.length / 2 < colorScale.length,
      getColorFromScale value vMin vMin colorScale = some (colorScale.get ⟨colorScale.length / 2, h⟩) := by
  have h : colorScale.length / 2 < colorScale.length := Nat.div_lt_self hn one_lt_two
  refine ⟨h, ?_⟩
  rw [getColorFromScale, if_pos rfl]
  exact List.get?_eq_get h

/-- Witness for C6: a three-entry palette with `min = max = 7` returns the
middle entry for an arbitrary value. -/
theorem getColorFromScale_degenerate_witness :
    ∃ h : ([ "low", "mid", "high" ] : List String).length / 2 < ([ "low", "mid", "high" ] : List String).length,
      getColorFromScale 42 7 7 ["low", "mid", "high"]
        = some ((["low", "mid", "high"] : List String).get ⟨(["low", "mid", "high"] : List String).length / 2, h⟩) :=
  getColorFromScale_degenerate 42 7 ["low", "mid", "high"] (by norm_num)

/-- C7 (confirmed): for fixed `min < max` and a fixed palette size, the
palette index computed by the color-mapping function is monotonically
non-decreasing in the value. -/
theorem colorScaleIndex_monotone (vMin vMax v₁ v₂ : ℚ) (n : ℕ)
    (hlt : vMin < vMax) (h : v₁ ≤ v₂) :
    colorScaleIndex v₁ vMin vMax n ≤ colorScaleIndex v₂ vMin vMax n := by
  have hpos : (0 : ℚ) < vMax - vMin := by linarith
  have hdiv : (v₁ - vMin) / (vMax - vMin) ≤ (v₂ - vMin) / (vMax - vMin) :=
    div_le_div_of_nonneg_right (by linarith) hpos.le
  have hmul : (v₁ - vMin) / (vMax - vMin) * (n : ℚ) ≤ (v₂ - vMin) / (vMax - vMin) * (n : ℚ) :=
    mul_le_mul_of_nonneg_right hdiv (by positivity)
  exact min_le_min (Int.floor_le_floor hmul) le_rfl

/-- Witness for C7 at concrete inputs 1 ≤ 2 on the domain [0, 100] with a
five-entry palette. -/
theorem colorScaleIndex_monotone_witness :
    colorScaleIndex 1 0 100 5 ≤ colorScaleIndex 2 0 100 5 :=
  colorScaleIndex_monotone 0 100 1 2 5 (by norm_num) (by norm_num)

/-- Region pricing record supplied to the PricingHeatmap (shape of
`RegionPricingData` as used by the source: name, code, aggregate price
statistics, vendor and SKU counts, normalized price index). -/
structure RegionPricingData where
  region : String
  region_code : String
  avg_price : ℚ
  min_price : ℚ
  max_price : ℚ
  vendor_count : ℕ
  sku_count : ℕ
  price_index : ℚ
deriving DecidableEq

/-- The heatmap metric selector (`'avg_price' | 'vendor_count' | 'price_index'`). -/
inductive HeatmapMetric where
  | avg_price
  | vendor_count
  | price_index
deriving DecidableEq

/-- The value extracted from a region for the selected metric
(PricingHeatmap source, lines 141-152). -/
def metricValue (m : HeatmapMetric) (d : RegionPricingData) : ℚ :=
  match m with
  | .avg_price => d.avg_price
  | .vendor_count => (d.vendor_count : ℚ)
  | .price_index => d.price_index

/-- `Math.min(...values)` over a non-empty spread of values; the source
only applies it to a non-empty list (the empty case is guarded first), so
the value on `[]` is irrelevant. -/
def jsMathMin : List ℚ → ℚ
  | [] => 0
  | [x] => x
  | x :: y :: xs => Min.min x (jsMathMin (y :: xs))

/-- `Math.max(...values)` over a non-empty spread of values. -/
def jsMathMax : List ℚ → ℚ
  | [] => 0
  | [x] => x
  | x :: y :: xs => Max.max x (jsMathMax (y :: xs))

/-- Embedding of the `{minValue, maxValue}` useMemo of PricingHeatmap
(source lines 138-158): an empty collection short-circuits to the fixed
fallback `{minValue: 0, maxValue: 100}`; otherwise the caller-supplied
overrides `config.minValue ?? ...` / `config.maxValue ?? ...` take
precedence over the true min/max of the selected metric. -/
def computeHeatmapRange (data : List RegionPricingData) (metric : HeatmapMetric)
    (cfgMin cfgMax : Option ℚ) : ℚ × ℚ :=
  if data.length = 0 then (0, 100)
  else
    let values := data.map (metricValue metric)
    (cfgMin.getD (jsMathMin values), cfgMax.getD (jsMathMax values))

/-- Summary stat `data.reduce((sum, d) => sum + d.vendor_count, 0)`
(PricingHeatmap source, line 386). -/
def totalVendors (data : List RegionPricingData) : ℕ :=
  data.foldl (fun sum d => sum + d.vendor_count) 0

/-- Summary stat `data.reduce((sum, d) => sum + d.sku_count, 0)`
(PricingHeatmap source, line 392). -/
def totalSKUs (data : List RegionPricingData) : ℕ :=
  data.foldl (fun sum d => sum + d.sku_count) 0

/-- Summary stat for the average price across regions (PricingHeatmap
source, lines 398-402): the mean of `avg_price` when the collection is
non-empty, and otherwise the literal `'$0.00'`, i.e. the rendering of 0. -/
def avgPriceAllRegions (data : List RegionPricingData) : ℚ :=
  if 0 < data.length then
    (data.foldl (fun sum d => sum + d.avg_price) 0) / (data.length : ℚ)
  else 0

theorem jsMathMin_mem : ∀ (l : List ℚ), l ≠ [] → jsMathMin l ∈ l := by
  intro l
  induction l with
  | nil => intro h; exact absurd rfl h
  | cons x xs ih =>
    intro _
    cases xs with
    | nil => simp [jsMathMin]
    | cons y ys =>
      rcases min_choice x (jsMathMin (y :: ys)) with h | h
      · rw [jsMathMin, h]; exact List.mem_cons_self _ _
      · rw [jsMathMin, h]
        exact List.mem_cons_of_mem _ (ih (List.cons_ne_nil _ _))

theorem jsMathMin_le : ∀ (l : List ℚ), ∀ x ∈ l, jsMathMin l ≤ x := by
  intro l
  induction l with
  | nil => intro x hx; exact absurd hx (List.not_mem_nil x)
  | cons a as ih =>
    intro x hx
    cases as with
    | nil =>
      rcases List.mem_cons.mp hx with h | h
      · subst h; exact le_rfl
      · exact absurd h (List.not_mem_nil x)
    | cons b bs =>
      rcases List.mem_cons.mp hx with h | h
      · subst h; exact min_le_left _ _
      · exact le_trans (min_le_right _ _) (ih x h)

theorem jsMathMax_mem : ∀ (l : List ℚ), l ≠ [] → jsMathMax l ∈ l := by
  intro l
  induction l with
  | nil => intro h; exact absurd rfl h
  | cons x xs ih =>
    intro _
    cases xs with
    | nil => simp [jsMathMax]
    | cons y ys =>
      rcases max_choice x (jsMathMax (y :: ys)) with h | h
      · rw [jsMathMax, h]; exact List.mem_cons_self _ _
      · rw [jsMathMax, h]
        exact List.mem_cons_of_mem _ (ih (List.cons_ne_nil _ _))

theorem jsMathMax_ge : ∀ (l : List ℚ), ∀ x ∈ l, x ≤ jsMathMax l := by
  intro l
  induction l with
  | nil => intro x hx; exact absurd hx (List.not_mem_nil x)
  | cons a as ih =>
    intro x hx
    cases as with
    | nil =>
      rcases List.mem_cons.mp hx with h | h
      · subst h; exact le_rfl
      · exact absurd h (List.not_mem_nil x)
    | cons b bs =>
      rcases List.mem_cons.mp hx with h | h
      · subst h; exact le_max_left _ _
      · exact le_trans (ih x h) (le_max_right _ _)

/-- C5 (confirmed): an empty PricingRegion collection yields exactly the
fallback range `{minValue: 0, maxValue: 100}` and zero aggregate summary
statistics (total vendors, total SKUs, average price — the latter rendered
as `$0.00`), with no error; a non-empty collection yields the
caller-supplied overrides when present and otherwise the true min/max of
the selected metric over the collection (an attained lower/upper bound). -/
theorem heatmapDerived_spec (metric : HeatmapMetric) (cfgMin cfgMax : Option ℚ)
    (data : List RegionPricingData) :
    (computeHeatmapRange [] metric cfgMin cfgMax = (0, 100)
      ∧ totalVendors [] = 0 ∧ totalSKUs [] = 0 ∧ avgPriceAllRegions [] = 0)
    ∧ (data ≠ [] →
        computeHeatmapRange data metric cfgMin cfgMax
          = (cfgMin.getD (jsMathMin (data.map (metricValue metric))),
             cfgMax.getD (jsMathMax (data.map (metricValue metric))))
        ∧ jsMathMin (data.map (metricValue metric)) ∈ data.map (metricValue metric)
        ∧ (∀ x ∈ data.map (metricValue metric), jsMathMin (data.map (metricValue metric)) ≤ x)
        ∧ jsMathMax (data.map (metricValue metric)) ∈ data.map (metricValue metric)
        ∧ (∀ x ∈ data.map (metricValue metric), x ≤ jsMathMax (data.map (metricValue metric)))) := by
  constructor
  · exact ⟨rfl, rfl, rfl, rfl⟩
  · intro hne
    have hlen : data.length ≠ 0 := fun h => hne (List.length_eq_zero.mp h)
    have hmapne : data.map (metricValue metric) ≠ [] := by
      intro h
      exact hne (List.map_eq_nil.mp h)
    refine ⟨?_, jsMathMin_mem _ hmapne, jsMathMin_le _, jsMathMax_mem _ hmapne, jsMathMax_ge _⟩
    rw [computeHeatmapRange, if_neg hlen]

/-- Witness for C5: the empty collection gives the fallback range and zero
sums, and the concrete two-region collection (CA avg 3.5, TX avg 1.9) with
no overrides gives an attained true range. -/
theorem heatmapDerived_spec_witness :
    (computeHeatmapRange [] .avg_price none (some 7) = (0, 100)
      ∧ totalVendors [] = 0 ∧ totalSKUs [] = 0 ∧ avgPriceAllRegions [] = 0)
    ∧ (computeHeatmapRange
          [⟨"California", "CA", 3.5, 3, 4, 5, 10, 1⟩, ⟨"Texas", "TX", 1.9, 1, 3, 2, 6, 1⟩]
          .avg_price none (some 7)
        = (Option.getD none (jsMathMin (([⟨"California", "CA", 3.5, 3, 4, 5, 10, 1⟩,
              ⟨"Texas", "TX", 1.9, 1, 3, 2, 6, 1⟩] : List RegionPricingData).map (metricValue .avg_price))),
           Option.getD (some 7) (jsMathMax (([⟨"California", "CA", 3.5, 3, 4, 5, 10, 1⟩,
              ⟨"Texas", "TX", 1.9, 1, 3, 2, 6, 1⟩] : List RegionPricingData).map (metricValue .avg_price))))) :=
  ⟨(heatmapDerived_spec .avg_price none (some 7) []).1,
   ((heatmapDerived_spec .avg_price none (some 7)
      [⟨"California", "CA", 3.5, 3, 4, 5, 10, 1⟩, ⟨"Texas", "TX", 1.9, 1, 3, 2, 6, 1⟩]).2
      (List.cons_ne_nil _ _)).1⟩

/-- Vendor record as used by the VendorMatrix component. -/
structure Vendor where
  vendor_id : String
  vendor_name : String
deriving DecidableEq

/-- One cell of the vendor/SKU matrix (`VendorMatrixCell`): pairs a vendor
and a SKU, and carries whether pricing exists, the price, the price rank
(1 = cheapest for that SKU) and the primary-supplier flag. -/
structure VendorMatrixCell where
  vendor_id : String
  sku_id : String
  has_pricing : Bool
  price : Option ℚ
  price_rank : Option ℕ
  is_primary_supplier : Bool
deriving DecidableEq

/-- Embedding of `isSingleSource` (VendorMatrix source, lines 113-121):
`data.matrix.flat().filter(c => c.sku_id === skuId && c.has_pricing).length === 1`. -/
def isSingleSource (matrix : List (List VendorMatrixCell)) (skuId : String) : Bool :=
  (matrix.flatten.filter (fun c => c.sku_id == skuId && c.has_pricing)).length == 1

/-- C4 (confirmed): the single-source predicate for a SKU holds iff exactly
one cell with that `sku_id` across all vendors has `has_pricing` true; and
adding a second priced cell for that SKU to a matrix where it held makes it
false. -/
theorem isSingleSource_iff (matrix : List (List VendorMatrixCell)) (s : String) :
    (isSingleSource matrix s = true
      ↔ List.countP (fun c => c.sku_id == s && c.has_pricing) matrix.flatten = 1)
    ∧ (∀ (c : VendorMatrixCell) (row : List VendorMatrixCell),
        c.sku_id = s → c.has_pricing = true → isSingleSource matrix s = true →
        isSingleSource ((c :: row) :: matrix) s = false) := by
  have key : ∀ (m : List (List VendorMatrixCell)),
      isSingleSource m s = true
        ↔ List.countP (fun c => c.sku_id == s && c.has_pricing) m.flatten = 1 := by
    intro m
    rw [isSingleSource, List.countP_eq_length_filter]
    exact beq_iff_eq
  refine ⟨key matrix, ?_⟩
  intro c row hsku hp hone
  have hcount := (key matrix).mp hone
  have hpc : (fun c => c.sku_id == s && c.has_pricing) c = true := by
    simp [hsku, hp]
  have h2 : 2 ≤ List.countP (fun c => c.sku_id == s && c.has_pricing)
      ((c :: row) :: matrix).flatten := by
    rw [List.flatten_cons, List.countP_append,
      List.countP_cons_of_pos (fun c => c.sku_id == s && c.has_pricing) row hpc]
    omega
  have hne : isSingleSource ((c :: row) :: matrix) s ≠ true := by
    intro htrue
    have := (key ((c :: row) :: matrix)).mp htrue
    omega
  exact Bool.eq_false_iff.mpr hne

/-- Witness for C4: a matrix with exactly one priced cell for SKU `S1` has
the single-source flag, and prepending a second priced `S1` cell clears it. -/
theorem isSingleSource_iff_witness :
    isSingleSource [[⟨"V1", "S1", true, some 2, some 1, true⟩]] "S1" = true
    ∧ isSingleSource [[⟨"V2", "S1", true, some 3, some 2, false⟩],
        [⟨"V1", "S1", true, some 2, some 1, true⟩]] "S1" = false :=
  ⟨(isSingleSource_iff [[⟨"V1", "S1", true, some 2, some 1, true⟩]] "S1").1.mpr (by decide),
   (isSingleSource_iff [[⟨"V1", "S1", true, some 2, some 1, true⟩]] "S1").2
     ⟨"V2", "S1", true, some 3, some 2, false⟩ [] rfl rfl
     ((isSingleSource_iff [[⟨"V1", "S1", true, some 2, some 1, true⟩]] "S1").1.mpr (by decide))⟩

/-- Per-vendor coverage count used by the coverage sort (VendorMatrix
source, lines 59-67): `data.matrix.flat().filter(c => c.vendor_id === v && c.has_pricing).length`. -/
def coverageCount (matrix : List (List VendorMatrixCell)) (vendorId : String) : ℕ :=
  (matrix.flatten.filter (fun c => c.vendor_id == vendorId && c.has_pricing)).length

/-- The comparator order of the coverage sort: `a` may precede `b` when the
JavaScript comparator `(a, b) => bCount - aCount` is non-positive, i.e. when
`b`'s coverage count is at most `a`'s (descending by coverage). -/
def coverageGE (matrix : List (List VendorMatrixCell)) (a b : Vendor) : Prop :=
  coverageCount matrix b.vendor_id ≤ coverageCount matrix a.vendor_id

instance (matrix : List (List VendorMatrixCell)) : DecidableRel (coverageGE matrix) :=
  fun a b => inferInstanceAs (Decidable (_ ≤ _))

instance (matrix : List (List VendorMatrixCell)) : IsTotal Vendor (coverageGE matrix) :=
  ⟨fun a b => le_total (coverageCount matrix b.vendor_id) (coverageCount matrix a.vendor_id)⟩

instance (matrix : List (List VendorMatrixCell)) : IsTrans Vendor (coverageGE matrix) :=
  ⟨fun _ _ _ hab hbc => le_trans hbc hab⟩

/-- Embedding of the `sortBy = 'coverage'` branch of `sortedVendors`
(VendorMatrix source, lines 53-81): JavaScript `Array.prototype.sort` is a
stable sort, modelled by the stable `List.insertionSort` over the
comparator order. -/
def sortVendorsByCoverage (vendors : List Vendor) (matrix : List (List VendorMatrixCell)) : List Vendor :=
  List.insertionSort (coverageGE matrix) vendors

theorem sortVendorsByCoverage_sorted (vendors : List Vendor) (matrix : List (List VendorMatrixCell)) :
    List.Sorted (coverageGE matrix) (sortVendorsByCoverage vendors matrix) :=
  List.sorted_insertionSort (coverageGE matrix) vendors

/-- Stability of the coverage sort, as preservation of every filter by an
exact coverage count. -/
theorem sortVendorsByCoverage_filter_eq (vendors : List Vendor)
    (matrix : List (List VendorMatrixCell)) (n : ℕ) :
    (sortVendorsByCoverage vendors matrix).filter (fun v => coverageCount matrix v.vendor_id == n)
      = vendors.filter (fun v => coverageCount matrix v.vendor_id == n) := by
  set p : Vendor → Bool := fun v => coverageCount matrix v.vendor_id == n with hp
  have hpair : (vendors.filter p).Pairwise (coverageGE matrix) := by
    refine List.pairwise_of_forall_mem_list ?_
    intro a ha b hb
    have ha' := (List.mem_filter.mp ha).2
    have hb' := (List.mem_filter.mp hb).2
    have ha2 : coverageCount matrix a.vendor_id = n := by
      simpa [hp] using ha'
    have hb2 : coverageCount matrix b.vendor_id = n := by
      simpa [hp] using hb'
    rw [coverageGE, ha2, hb2]
  have hsub : (vendors.filter p).Sublist (sortVendorsByCoverage vendors matrix) :=
    List.sublist_insertionSort hpair (List.filter_sublist vendors)
  have hself : (vendors.filter p).filter p = vendors.filter p :=
    List.filter_eq_self.mpr (fun a ha => (List.mem_filter.mp ha).2)
  have hsub2 : (vendors.filter p).Sublist
      ((sortVendorsByCoverage vendors matrix).filter p) := by
    have := hsub.filter p
    rwa [hself] at this
  have hperm : ((sortVendorsByCoverage vendors matrix).filter p).Perm (vendors.filter p) :=
    (List.perm_insertionSort (coverageGE matrix) vendors).filter p
  exact (hsub2.eq_of_length hperm.length_eq.symm).symm

/-- C8 (confirmed): sorting vendors by coverage orders them in descending
order of their count of priced matrix cells — if the vendor at position `i`
of the output has strictly fewer priced cells than the vendor at position
`j`, then `j` comes first — and vendors with equal counts keep their
relative input order (every filter by an exact coverage count is
preserved). -/
theorem sortVendorsByCoverage_spec (vendors : List Vendor)
    (matrix : List (List VendorMatrixCell)) :
    (∀ i j : Fin (sortVendorsByCoverage vendors matrix).length,
      coverageCount matrix ((sortVendorsByCoverage vendors matrix).get i).vendor_id
          < coverageCount matrix ((sortVendorsByCoverage vendors matrix).get j).vendor_id →
      (j : ℕ) < (i : ℕ))
    ∧ (∀ n : ℕ,
        (sortVendorsByCoverage vendors matrix).filter
            (fun v => coverageCount matrix v.vendor_id == n)
          = vendors.filter (fun v => coverageCount matrix v.vendor_id == n)) := by
  constructor
  · intro i j hlt
    by_contra hji
    push_neg at hji
    have hpair := (List.pairwise_iff_get.mp (sortVendorsByCoverage_sorted vendors matrix))
    rcases lt_or_eq_of_le hji with h | h
    · have := hpair i j (by exact_mod_cast h)
      exact absurd hlt (not_lt.mpr this)
    · have : i = j := Fin.ext h
      subst this
      exact lt_irrefl _ hlt
  · exact sortVendorsByCoverage_filter_eq vendors matrix

/-- Concrete vendor list for the coverage-sort example: vendor A priced on
3 SKUs, vendor B priced on 7 of the same 10 SKUs, supplied with A first. -/
def exampleVendors : List Vendor := [⟨"A", "Vendor A"⟩, ⟨"B", "Vendor B"⟩]

/-- Concrete matrix for the coverage-sort example. -/
def exampleMatrix : List (List VendorMatrixCell) :=
  [[⟨"A", "S1", true, none, none, false⟩, ⟨"A", "S2", true, none, none, false⟩,
    ⟨"A", "S3", true, none, none, false⟩,
    ⟨"B", "S1", true, none, none, false⟩, ⟨"B", "S2", true, none, none, false⟩,
    ⟨"B", "S3", true, none, none, false⟩, ⟨"B", "S4", true, none, none, false⟩,
    ⟨"B", "S5", true, none, none, false⟩, ⟨"B", "S6", true, none, none, false⟩,
    ⟨"B", "S7", true, none, none, false⟩]]

theorem exampleSort_len0 : 0 < (sortVendorsByCoverage exampleVendors exampleMatrix).length := by
  decide

theorem exampleSort_len1 : 1 < (sortVendorsByCoverage exampleVendors exampleMatrix).length := by
  decide

/-- Witness for C8: with vendor A covering 3 of 10 SKUs and vendor B
covering 7, the sorted output places the strictly-smaller-coverage vendor
(position 1) after the larger one (position 0), and the filter by the
exact count 3 is preserved from the input order. -/
theorem sortVendorsByCoverage_spec_witness :
    coverageCount exampleMatrix
        ((sortVendorsByCoverage exampleVendors exampleMatrix).get ⟨1, exampleSort_len1⟩).vendor_id
      < coverageCount exampleMatrix
        ((sortVendorsByCoverage exampleVendors exampleMatrix).get ⟨0, exampleSort_len0⟩).vendor_id
    ∧ (0 : ℕ) < 1
    ∧ (sortVendorsByCoverage exampleVendors exampleMatrix).filter
          (fun v => coverageCount exampleMatrix v.vendor_id == 3)
        = exampleVendors.filter (fun v => coverageCount exampleMatrix v.vendor_id == 3) :=
  ⟨by decide,
   (sortVendorsByCoverage_spec exampleVendors exampleMatrix).1
     ⟨1, exampleSort_len1⟩ ⟨0, exampleSort_len0⟩ (by decide),
   (sortVendorsByCoverage_spec exampleVendors exampleMatrix).2 3⟩

/-- Response shape of `POST /v1/inference/simulate-promo`
(`PromoSimulationResponse` in the PromoCalibrationSlider source). -/
structure PromoSimulationResponse where
  projected_lift : ℚ
  confidence_interval : ℚ × ℚ
  ai_recommended_value : ℚ
  calibration_score : ℚ
  latency_ms : ℚ
  model_version : String
deriving DecidableEq

/-- State of one mounted PromoCalibrationSlider instance.  The first six
fields are the displayed React state.  `pendingTimer` models the armed
lodash `debounce` timer as `(deadline, value)`.  The `AbortController` ref
is modelled by request generations: `nextGen` numbers outgoing requests,
`liveGen` is the generation of the one non-aborted in-flight request (the
current `abortControllerRef`), and `callbackLog` / `requestLog` record the
`onValueChange` invocations and the issued requests
`(issue time, generation, promo value)` for the temporal claims. -/
structure SliderState where
  sliderValue : ℚ
  aiRecommendedValue : ℚ
  confidenceInterval : ℚ × ℚ
  projectedLift : ℚ
  calibrationScore : ℚ
  latencyMs : ℚ
  callbackLog : List ℚ
  pendingTimer : Option (ℚ × ℚ)
  nextGen : ℕ
  liveGen : Option ℕ
  requestLog : List (ℚ × ℕ × ℚ)
deriving DecidableEq

/-- Initial state after mount (PromoCalibrationSlider source, lines
602-608): slider and anchor start at the caller-supplied recommendation,
`projectedLift = 0`, `calibrationScore = 0.8`, `latencyMs = 0`, no timer
and no in-flight request. -/
def initialSliderState (initialAiValue : ℚ) (initialCI : ℚ × ℚ) : SliderState :=
  { sliderValue := initialAiValue
    aiRecommendedValue := initialAiValue
    confidenceInterval := initialCI
    projectedLift := 0
    calibrationScore := 4/5
    latencyMs := 0
    callbackLog := []
    pendingTimer := none
    nextGen := 0
    liveGen := none
    requestLog := [] }

/-- Embedding of `callInferenceAPI` issuing a request (source lines
627-653): the previous `AbortController` is aborted — its generation stops
being live — a fresh controller is installed for generation `nextGen`, and
the request goes out at time `t` with promo value `v`. -/
def callInferenceAPI (t v : ℚ) (s : SliderState) : SliderState :=
  { s with
    liveGen := some s.nextGen
    nextGen := s.nextGen + 1
    requestLog := s.requestLog ++ [(t, s.nextGen, v)] }

/-- Arrival of the response to request generation `g` (source lines
655-666): the five server-supplied fields are applied only when `g` is
still the live (non-aborted) generation; an aborted request's response
never reaches the success path (its fetch promise was rejected), so the
state is unchanged. -/
def receiveResponse (g : ℕ) (r : PromoSimulationResponse) (s : SliderState) : SliderState :=
  if s.liveGen = some g then
    { s with
      confidenceInterval := r.confidence_interval
      aiRecommendedValue := r.ai_recommended_value
      projectedLift := r.projected_lift
      calibrationScore := r.calibration_score
      latencyMs := r.latency_ms
      liveGen := none }
  else s

/-- Discrete-event advance to time `t`: a debounce timer whose 300ms
deadline has been reached fires `callInferenceAPI` with the last armed
value (source lines 679-684), at its deadline. -/
def fireDueTimer (t : ℚ) (s : SliderState) : SliderState :=
  match s.pendingTimer with
  | some (deadline, v) =>
      if deadline ≤ t then callInferenceAPI deadline v { s with pendingTimer := none } else s
  | none => s

/-- Embedding of `handleSliderChange` for a drag at time `t` with value `v`
(source lines 689-698): any timer due by `t` fires first; then the
displayed slider value is set synchronously (optimistic update), the
external `onValueChange` callback is invoked synchronously with `v`, and
the debounce timer is re-armed to `t + 300` with `v`. -/
def handleSliderChange (t v : ℚ) (s : SliderState) : SliderState :=
  let s' := fireDueTimer t s
  { s' with
    sliderValue := v
    callbackLog := s'.callbackLog ++ [v]
    pendingTimer := some (t + 300, v) }

/-- Run a timed sequence of drag events through `handleSliderChange`. -/
def runDrags (s : SliderState) (events : List (ℚ × ℚ)) : SliderState :=
  events.foldl (fun acc e => handleSliderChange e.1 e.2 acc) s

/-- After the 300ms quiet period with no further drags elapses, the armed
debounce timer fires at its deadline. -/
def flushDebounce (s : SliderState) : SliderState :=
  match s.pendingTimer with
  | some (deadline, v) => callInferenceAPI deadline v { s with pendingTimer := none }
  | none => s

/-- C9 (confirmed): on successful completion of a non-superseded request
(its generation is still live), exactly the five server-supplied fields —
confidence interval, AI-recommended value, projected lift, calibration
score and last latency — are replaced with the response values, and the
displayed slider value (and the callback / request history) is left
unchanged. -/
theorem receiveResponse_applies (s : SliderState) (g : ℕ) (r : PromoSimulationResponse)
    (hlive : s.liveGen = some g) :
    receiveResponse g r s
      = { s with
          confidenceInterval := r.confidence_interval
          aiRecommendedValue := r.ai_recommended_value
          projectedLift := r.projected_lift
          calibrationScore := r.calibration_score
          latencyMs := r.latency_ms
          liveGen := none }
    ∧ (receiveResponse g r s).sliderValue = s.sliderValue
    ∧ (receiveResponse g r s).callbackLog = s.callbackLog
    ∧ (receiveResponse g r s).requestLog = s.requestLog := by
  have h : receiveResponse g r s
      = { s with
          confidenceInterval := r.confidence_interval
          aiRecommendedValue := r.ai_recommended_value
          projectedLift := r.projected_lift
          calibrationScore := r.calibration_score
          latencyMs := r.latency_ms
          liveGen := none } := by
    rw [receiveResponse, if_pos hlive]
  exact ⟨h, by rw [h], by rw [h], by rw [h]⟩

/-- Witness for C9: the request issued from the initial state is live with
generation 0, and a concrete response replaces exactly the five fields. -/
theorem receiveResponse_applies_witness :
    receiveResponse 0 ⟨3, (12, 18), 14, 9/10, 45, "v1"⟩
        (callInferenceAPI 300 10 (initialSliderState 15 (10, 20)))
      = { callInferenceAPI 300 10 (initialSliderState 15 (10, 20)) with
          confidenceInterval := (12, 18)
          aiRecommendedValue := 14
          projectedLift := 3
          calibrationScore := 9/10
          latencyMs := 45
          liveGen := none }
    ∧ (receiveResponse 0 ⟨3, (12, 18), 14, 9/10, 45, "v1"⟩
        (callInferenceAPI 300 10 (initialSliderState 15 (10, 20)))).sliderValue
      = (callInferenceAPI 300 10 (initialSliderState 15 (10, 20))).sliderValue
    ∧ (receiveResponse 0 ⟨3, (12, 18), 14, 9/10, 45, "v1"⟩
        (callInferenceAPI 300 10 (initialSliderState 15 (10, 20)))).callbackLog
      = (callInferenceAPI 300 10 (initialSliderState 15 (10, 20))).callbackLog
    ∧ (receiveResponse 0 ⟨3, (12, 18), 14, 9/10, 45, "v1"⟩
        (callInferenceAPI 300 10 (initialSliderState 15 (10, 20)))).requestLog
      = (callInferenceAPI 300 10 (initialSliderState 15 (10, 20))).requestLog :=
  receiveResponse_applies (callInferenceAPI 300 10 (initialSliderState 15 (10, 20))) 0
    ⟨3, (12, 18), 14, 9/10, 45, "v1"⟩ rfl

/-- C2 (confirmed): issuing a new inference request while a previous one
(generation `g`) is still in flight makes the new generation the only live
one — the previous controller is aborted — so the superseded request's
eventual response leaves the state completely unchanged; more generally a
response for any generation other than the newest has no effect, so at
most one live request's result is ever applied and it is the most recent
one. -/
theorem callInferenceAPI_supersedes (s : SliderState) (g : ℕ) (t v : ℚ)
    (r : PromoSimulationResponse) (hlive : s.liveGen = some g) (hgen : g < s.nextGen) :
    (callInferenceAPI t v s).liveGen = some s.nextGen
    ∧ receiveResponse g r (callInferenceAPI t v s) = callInferenceAPI t v s
    ∧ (∀ (g' : ℕ) (r' : PromoSimulationResponse), g' ≠ s.nextGen →
        receiveResponse g' r' (callInferenceAPI t v s) = callInferenceAPI t v s) := by
  have hlive' : (callInferenceAPI t v s).liveGen = some s.nextGen := rfl
  have hgeneral : ∀ (g' : ℕ) (r' : PromoSimulationResponse), g' ≠ s.nextGen →
      receiveResponse g' r' (callInferenceAPI t v s) = callInferenceAPI t v s := by
    intro g' r' hne
    rw [receiveResponse, if_neg]
    rw [hlive']
    intro h
    exact hne (Option.some.inj h).symm
  exact ⟨hlive', hgeneral g r (Nat.ne_of_lt hgen), hgeneral⟩

/-- Witness for C2: from the initial state a first request (generation 0)
is in flight; issuing a second one supersedes it and the first response is
discarded without effect. -/
theorem callInferenceAPI_supersedes_witness :
    (callInferenceAPI 600 12 (callInferenceAPI 300 10 (initialSliderState 15 (10, 20)))).liveGen
      = some (callInferenceAPI 300 10 (initialSliderState 15 (10, 20))).nextGen
    ∧ receiveResponse 0 ⟨3, (12, 18), 14, 9/10, 45, "v1"⟩
          (callInferenceAPI 600 12 (callInferenceAPI 300 10 (initialSliderState 15 (10, 20))))
        = callInferenceAPI 600 12 (callInferenceAPI 300 10 (initialSliderState 15 (10, 20)))
    ∧ (∀ (g' : ℕ) (r' : PromoSimulationResponse),
        g' ≠ (callInferenceAPI 300 10 (initialSliderState 15 (10, 20))).nextGen →
        receiveResponse g' r'
            (callInferenceAPI 600 12 (callInferenceAPI 300 10 (initialSliderState 15 (10, 20))))
          = callInferenceAPI 600 12 (callInferenceAPI 300 10 (initialSliderState 15 (10, 20)))) :=
  callInferenceAPI_supersedes (callInferenceAPI 300 10 (initialSliderState 15 (10, 20))) 0 600 12
    ⟨3, (12, 18), 14, 9/10, 45, "v1"⟩ rfl (by decide)

/-- Quiet-run lemma: over a burst of drag events whose consecutive gaps are
under 300ms (and whose first event precedes any armed deadline), no
debounce timer ever fires: no request is issued, the slider and callback
log track every drag, and the timer ends armed at 300ms past the last
event with the last value. -/
theorem runDrags_quiet : ∀ (events : List (ℚ × ℚ)) (s : SliderState) (e : ℚ × ℚ),
    (∀ d v₀, s.pendingTimer = some (d, v₀) → e.1 < d) →
    List.Chain' (fun a b => a.1 ≤ b.1 ∧ b.1 < a.1 + 300) (e :: events) →
    runDrags s (e :: events)
      = { s with
          sliderValue := ((e :: events).getLast (List.cons_ne_nil e events)).2
          callbackLog := s.callbackLog ++ (e :: events).map Prod.snd
          pendingTimer := some (((e :: events).getLast (List.cons_ne_nil e events)).1 + 300,
            ((e :: events).getLast (List.cons_ne_nil e events)).2) } := by
  intro events
  induction events with
  | nil =>
    intro s e hq _
    have hfire : fireDueTimer e.1 s = s := by
      rcases hp : s.pendingTimer with _ | ⟨d, v₀⟩
      · simp [fireDueTimer, hp]
      · simp [fireDueTimer, hp, not_le.mpr (hq d v₀ hp)]
    show handleSliderChange e.1 e.2 s = _
    rw [handleSliderChange, hfire]
    simp [List.getLast_singleton]
  | cons e₂ rest ih =>
    intro s e hq hchain
    obtain ⟨⟨hle, hlt⟩, hchain'⟩ := List.chain'_cons.mp hchain
    have hfire : fireDueTimer e.1 s = s := by
      rcases hp : s.pendingTimer with _ | ⟨d, v₀⟩
      · simp [fireDueTimer, hp]
      · simp [fireDueTimer, hp, not_le.mpr (hq d v₀ hp)]
    have hs₁ : handleSliderChange e.1 e.2 s
        = { s with
            sliderValue := e.2
            callbackLog := s.callbackLog ++ [e.2]
            pendingTimer := some (e.1 + 300, e.2) } := by
      rw [handleSliderChange, hfire]
    have hq₁ : ∀ d v₀,
        ({ s with
            sliderValue := e.2
            callbackLog := s.callbackLog ++ [e.2]
            pendingTimer := some (e.1 + 300, e.2) } : SliderState).pendingTimer = some (d, v₀) →
        e₂.1 < d := by
      intro d v₀ h
      simp only [Option.some.injEq, Prod.mk.injEq] at h
      rw [← h.1]
      exact hlt
    have hrun : runDrags s (e :: e₂ :: rest)
        = runDrags (handleSliderChange e.1 e.2 s) (e₂ :: rest) := by
      rw [runDrags, runDrags, List.foldl_cons]
    rw [hrun, hs₁, ih _ e₂ hq₁ hchain']
    simp [List.getLast_cons, List.append_assoc]

/-- C3 (confirmed): for any non-empty sequence of slider drags whose
consecutive events are separated by less than 300ms (and are in time
order), exactly one outbound calibration request is issued; it carries the
value of the last drag and fires 300ms after that last event.  Meanwhile
the displayed slider value is updated synchronously on every drag and the
external value-change callback is invoked synchronously with each dragged
value, independently of any network outcome (no response is needed for any
of this). -/
theorem debouncedCalibration_spec (initialAiValue : ℚ) (initialCI : ℚ × ℚ)
    (events : List (ℚ × ℚ)) (hne : events ≠ [])
    (hchain : List.Chain' (fun a b => a.1 ≤ b.1 ∧ b.1 < a.1 + 300) events) :
    (flushDebounce (runDrags (initialSliderState initialAiValue initialCI) events)).requestLog
        = [((events.getLast hne).1 + 300, 0, (events.getLast hne).2)]
    ∧ (flushDebounce (runDrags (initialSliderState initialAiValue initialCI) events)).sliderValue
        = (events.getLast hne).2
    ∧ (flushDebounce (runDrags (initialSliderState initialAiValue initialCI) events)).callbackLog
        = events.map Prod.snd
    ∧ (∀ pre e post, events = pre ++ e :: post →
        (runDrags (initialSliderState initialAiValue initialCI) (pre ++ [e])).sliderValue = e.2
        ∧ (runDrags (initialSliderState initialAiValue initialCI) (pre ++ [e])).callbackLog
            = (pre ++ [e]).map Prod.snd) := by
  have hqinit : ∀ (e : ℚ × ℚ) (d v₀ : ℚ),
      (initialSliderState initialAiValue initialCI).pendingTimer = some (d, v₀) → e.1 < d := by
    intro e d v₀ h
    simp [initialSliderState] at h
  obtain ⟨e₀, rest, rfl⟩ := List.exists_cons_of_ne_nil hne
  have hmain := runDrags_quiet rest (initialSliderState initialAiValue initialCI) e₀
    (hqinit e₀) hchain
  refine ⟨?_, ?_, ?_, ?_⟩
  · rw [hmain, flushDebounce]
    simp [callInferenceAPI, initialSliderState]
  · rw [hmain, flushDebounce]
    simp [callInferenceAPI, initialSliderState]
  · rw [hmain, flushDebounce]
    simp [callInferenceAPI, initialSliderState]
  · intro pre e post hsplit
    have hpref : (pre ++ [e]) <+: (e₀ :: rest) := ⟨post, by rw [hsplit]; simp⟩
    have hchainpre : List.Chain' (fun a b => a.1 ≤ b.1 ∧ b.1 < a.1 + 300) (pre ++ [e]) :=
      hchain.prefix hpref
    cases pre with
    | nil =>
      have h := runDrags_quiet [] (initialSliderState initialAiValue initialCI) e
        (hqinit e) (by rw [List.nil_append] at hchainpre; exact hchainpre)
      rw [List.nil_append, h]
      simp [initialSliderState, List.getLast_singleton]
    | cons p pre' =>
      have hchainpre' : List.Chain' (fun a b => a.1 ≤ b.1 ∧ b.1 < a.1 + 300)
          (p :: (pre' ++ [e])) := by
        rw [List.cons_append] at hchainpre
        exact hchainpre
      have h := runDrags_quiet (pre' ++ [e]) (initialSliderState initialAiValue initialCI) p
        (hqinit p) hchainpre'
      have hlast : ((p :: (pre' ++ [e])).getLast (List.cons_ne_nil p (pre' ++ [e]))) = e := by
        have : p :: (pre' ++ [e]) = (p :: pre') ++ [e] := by simp
        rw [List.getLast_congr _ _ this]
        exact List.getLast_concat _
      rw [List.cons_append, h, hlast]
      simp [initialSliderState]

/-- Witness for C3: three drags 10 → 12 → 15 at times 0, 100, 200 (gaps
under 300ms) issue exactly one request, with value 15, at time 500 =
200 + 300; the slider and the callback log track every drag. -/
theorem debouncedCalibration_spec_witness :
    (flushDebounce (runDrags (initialSliderState 15 (10, 20))
        [(0, 10), (100, 12), (200, 15)])).requestLog = [(500, 0, 15)]
    ∧ (flushDebounce (runDrags (initialSliderState 15 (10, 20))
        [(0, 10), (100, 12), (200, 15)])).sliderValue = 15
    ∧ (flushDebounce (runDrags (initialSliderState 15 (10, 20))
        [(0, 10), (100, 12), (200, 15)])).callbackLog = [10, 12, 15]
    ∧ (runDrags (initialSliderState 15 (10, 20)) ([(0, 10)] ++ [(100, 12)])).sliderValue = 12
    ∧ (runDrags (initialSliderState 15 (10, 20)) ([(0, 10)] ++ [(100, 12)])).callbackLog
        = [10, 12] := by
  have hchain : List.Chain' (fun a b : ℚ × ℚ => a.1 ≤ b.1 ∧ b.1 < a.1 + 300)
      [(0, 10), (100, 12), (200, 15)] :=
    List.chain'_cons.mpr ⟨⟨by norm_num, by norm_num⟩,
      List.chain'_cons.mpr ⟨⟨by norm_num, by norm_num⟩, List.chain'_singleton _⟩⟩
  have h := debouncedCalibration_spec 15 (10, 20) [(0, 10), (100, 12), (200, 15)]
    (by simp) hchain
  have h4 := h.2.2.2 [(0, 10)] (100, 12) [(200, 15)] (by simp)
  refine ⟨?_, ?_, ?_, ?_, ?_⟩
  · rw [h.1]
    norm_num [List.getLast_cons, List.getLast_singleton]
  · rw [h.2.1]
    norm_num [List.getLast_cons, List.getLast_singleton]
  · rw [h.2.2.1]
    norm_num
  · rw [h4.1]
  · rw [h4.2]
    norm_num

/-- A JavaScript value as it can occur in a `SKUSearchFilters` field:
`undefined`, a boolean, a number or a string. -/
inductive JSValue where
  | undef
  | boolean (b : Bool)
  | number (q : ℚ)
  | string (s : String)
deriving DecidableEq

/-- JavaScript truthiness of a filter value: `undefined`, `false`, `0` and
the empty string are falsy. -/
def JSValue.truthy : JSValue → Bool
  | .undef => false
  | .boolean b => b
  | .number q => q != 0
  | .string s => s != ""

/-- The keys of `SKUSearchFilters` reachable through `handleFilterChange`. -/
inductive FilterKey where
  | query
  | category
  | region
  | supplier_id
  | min_price
  | max_price
  | is_active
deriving DecidableEq

/-- A filter record, as a total map from keys to JavaScript values where
`undef` means the field is absent (no constraint). -/
def SKUSearchFilters : Type := FilterKey → JSValue

/-- Embedding of `handleFilterChange` (SKUSearch source, lines 217-224):
`{ ...filters, [key]: value || undefined }` — the JavaScript `||` replaces
every falsy value by `undefined` before the new filters are dispatched. -/
def handleFilterChange (filters : SKUSearchFilters) (key : FilterKey) (value : JSValue) :
    SKUSearchFilters :=
  fun k => if k = key then (if value.truthy then value else .undef) else filters k

/-- Embedding of the `Active SKUs only` checkbox change handler (SKUSearch
source, lines 383-397): it routes
`e.target.checked ? undefined : false` through `handleFilterChange`. -/
def isActiveCheckboxChange (filters : SKUSearchFilters) (checked : Bool) : SKUSearchFilters :=
  handleFilterChange filters .is_active (if checked then .undef else .boolean false)

/-- C10 (confirmed): every falsy value routed through `handleFilterChange`
is coerced to absent (`undefined`) before dispatch; in particular the
`is_active` checkbox can only ever dispatch `is_active` absent (never
`false`), a `min_price`/`max_price` of exactly 0 is dispatched as absent,
and the dispatched value at the changed key is never `false` and never
`0`, so those constraints cannot be expressed through this handler. -/
theorem handleFilterChange_falsy (filters : SKUSearchFilters) (key : FilterKey) (value : JSValue) :
    (value.truthy = false → handleFilterChange filters key value key = .undef)
    ∧ (∀ checked : Bool, isActiveCheckboxChange filters checked .is_active = .undef)
    ∧ handleFilterChange filters .min_price (.number 0) .min_price = .undef
    ∧ handleFilterChange filters .max_price (.number 0) .max_price = .undef
    ∧ handleFilterChange filters key value key ≠ .boolean false
    ∧ handleFilterChange filters key value key ≠ .number 0 := by
  have hfalsy : ∀ (k : FilterKey) (v : JSValue), v.truthy = false →
      handleFilterChange filters k v k = .undef := by
    intro k v hv
    simp [handleFilterChange, hv]
  have hdispatch : ∀ (k : FilterKey), handleFilterChange filters key value k
      = if k = key then (if value.truthy then value else .undef) else filters k := by
    intro k
    rfl
  refine ⟨hfalsy key value, ?_, hfalsy .min_price _ (by rfl), hfalsy .max_price _ (by rfl), ?_, ?_⟩
  · intro checked
    cases checked with
    | false => exact hfalsy .is_active (.boolean false) rfl
    | true => exact hfalsy .is_active .undef rfl
  · rw [hdispatch key, if_pos rfl]
    rcases hv : value.truthy with _ | _
    · simp
    · intro h
      simp only [if_true] at h
      rw [h] at hv
      simp [JSValue.truthy] at hv
  · rw [hdispatch key, if_pos rfl]
    rcases hv : value.truthy with _ | _
    · simp
    · intro h
      simp only [if_true] at h
      rw [h] at hv
      simp [JSValue.truthy] at hv

/-- Witness for C10: unchecking the checkbox on an empty filter record
dispatches `is_active` absent, and a zero minimum price is dropped. -/
theorem handleFilterChange_falsy_witness :
    ((JSValue.number 0).truthy = false
      → handleFilterChange (fun _ => .undef) .min_price (.number 0) .min_price = .undef)
    ∧ (∀ checked : Bool, isActiveCheckboxChange (fun _ => .undef) checked .is_active = .undef)
    ∧ handleFilterChange (fun _ => .undef) .min_price (.number 0) .min_price = .undef
    ∧ handleFilterChange (fun _ => .undef) .max_price (.number 0) .max_price = .undef
    ∧ handleFilterChange (fun _ => .undef) .min_price (.number 0) .min_price ≠ .boolean false
    ∧ handleFilterChange (fun _ => .undef) .min_price (.number 0) .min_price ≠ .number 0 :=
  handleFilterChange_falsy (fun _ => .undef) .min_price (.number 0)
